import Mathlib

/-!
Shallow embedding of the web-building-blocks repository: the HexMap web
component (geometry projection, draw-order resolver, data-binding engine),
the TieredCache lazy lookup cache, and the StorageItem session-storage
wrapper. Numbers handled by the JavaScript source are modelled as rationals,
JavaScript objects as association lists from strings to values, and thrown
exceptions as Except results.
-/

/-- Association-list lookup: the first entry whose key matches, as in
JavaScript property access on an object with unique keys. -/
def assocGet {α : Type} (l : List (String × α)) (k : String) : Option α :=
  match l with
  | [] => none
  | (k', v') :: t => if k' = k then some v' else assocGet t k

/-- Association-list update modelling a JavaScript property write: an
existing key keeps its position and gets the new value; a fresh key is
appended at the end. -/
def assocSet {α : Type} (l : List (String × α)) (k : String) (v : α) :
    List (String × α) :=
  match l with
  | [] => [(k, v)]
  | (k', v') :: t => if k' = k then (k, v) :: t else (k', v') :: assocSet t k v

/-- JavaScript remainder is truncated toward zero; Math.abs of r % 2 is
therefore the natural absolute value of the truncated remainder. Models
the expression Math.abs(r % 2) from HexMap.coordinates. -/
def jsAbsMod2 (r : ℤ) : ℤ := (Int.tmod r 2).natAbs

/-- Configuration fields of a HexMap instance read by the coordinates
method: the pitch constants, the computed chart height, the orientation
flag (rotated = flat-topped) and the even-offset flag. -/
structure HexMapCfg where
  cadence : ℚ
  mainPitch : ℚ
  crossPitch : ℚ
  height : ℚ
  rotated : Bool
  even : Bool

namespace HexMap

/-- Embedding of HexMap.coordinates: offsetTest is 0 for even offset and 1
for odd; qOffset applies only when not rotated, rOffset only when rotated;
the returned pair is built from the single return expression of the source,
which always adds qOffset to x and always subtracts rOffset from y. -/
def coordinates (m : HexMapCfg) (q r : ℤ) : ℚ × ℚ :=
  let offsetTest : ℤ := if m.even then 0 else 1
  let qOffset : ℚ :=
    if ¬m.rotated ∧ jsAbsMod2 r = offsetTest then m.cadence else 0
  let rOffset : ℚ :=
    if m.rotated ∧ jsAbsMod2 q = offsetTest then m.cadence else 0
  ((if m.rotated then m.crossPitch else m.mainPitch) * q + qOffset,
    m.height - (if m.rotated then m.mainPitch else m.crossPitch) * r - rOffset)

/-- Projection formulas exactly as the specification words them, split into
the two orientation cases; the modulus here is the mathematical (euclidean)
one, wrapped in an absolute value as the spec writes it. -/
def coordinatesSpec (m : HexMapCfg) (q r : ℤ) : ℚ × ℚ :=
  let offsetTest : ℤ := if m.even then 0 else 1
  if m.rotated then
    (m.crossPitch * q,
      m.height - m.mainPitch * r -
        (if |q % 2| = offsetTest then m.cadence else 0))
  else
    (m.mainPitch * q + (if |r % 2| = offsetTest then m.cadence else 0),
      m.height - m.crossPitch * r)

end HexMap

/-- Value of one cell context field: JavaScript string or number. -/
inductive CtxVal : Type where
  | str (s : String)
  | num (x : ℚ)
deriving DecidableEq, Repr

/-- Hex context: an open string-keyed record of strings and numbers. -/
abbrev Ctx : Type := List (String × CtxVal)

/-- Cell definition from a HexJSON document: the mandatory axial
coordinates plus the open context. -/
structure HexDef where
  q : ℤ
  r : ℤ
  context : Ctx
deriving DecidableEq, Repr

/-- Cell as produced inside the hexes getter: the object key spread
together with its definition. -/
structure Cell where
  key : String
  q : ℤ
  r : ℤ
  context : Ctx
deriving DecidableEq, Repr

namespace HexMap

/-- Comparator passed to toSorted inside the hexes getter: descending by
row r, then ascending by quolumn q, equal cells compare as 0. -/
def hexCompare (a b : Cell) : ℤ :=
  if a.r < b.r then 1
  else if b.r < a.r then -1
  else if a.q < b.q then -1
  else if b.q < a.q then 1
  else 0

/-- Embedding of the hexes getter: the entries of the layout document are
turned into cells and stably sorted with hexCompare (toSorted in the
source is a stable comparator sort). -/
def hexes (entries : List (String × HexDef)) : List Cell :=
  (entries.map (fun e =>
      { key := e.1, q := e.2.q, r := e.2.r, context := e.2.context })).mergeSort
    (fun a b => decide (hexCompare a b ≤ 0))

end HexMap

/-- Rendered cell group: one SVG g.hex element with its data-key, its text
label, its title element content, its data-value attribute, the attached
context record and the element style declaration (an ordered property
list, as a CSSStyleDeclaration keeps insertion order). -/
structure RenderedHex where
  key : String
  label : String
  title : String
  dataValue : String
  context : Ctx
  style : List (String × String)
deriving DecidableEq, Repr

/-- Dataset entry: one value of the data record, itself a string-keyed
record of numbers. -/
abbrev DataEntry : Type := List (String × ℚ)

/-- External dataset: a JavaScript object keyed by cell key; absent keys
read as undefined. -/
abbrev Dataset : Type := String → Option DataEntry

/-- Numeric field of the object spread expression with defaults
value 0 and count 0: the entry field when present, otherwise 0. -/
def entryField (e : DataEntry) (k : String) : ℚ := (assocGet e k).getD 0

/-- Conversion of a bound number to the data-value attribute string,
modelling Number.prototype.toString. -/
def numToString (x : ℚ) : String := toString x

/-- Sequential style.setProperty calls for each entry of the style record
returned by the style mapper. -/
def applyStyles (entries : List (String × String))
    (s : List (String × String)) : List (String × String) :=
  entries.foldl (fun acc kv => assocSet acc kv.1 kv.2) s

namespace HexMap

/-- Body of the per-hex loop of HexMap updateHexes: read the entry for the
hex key with spread defaults, set the data-value attribute, write count
then value into the context, recompute the title from the updated context
and apply the style mapper output property by property. The label text is
not touched by this loop. -/
def updateHex (data : Dataset) (tSpec : Ctx → String)
    (sSpec : Ctx → List (String × String)) (h : RenderedHex) : RenderedHex :=
  let entry := (data h.key).getD []
  let count := entryField entry "count"
  let value := entryField entry "value"
  let ctx := assocSet (assocSet h.context "count" (CtxVal.num count))
    "value" (CtxVal.num value)
  { h with
    dataValue := numToString value
    context := ctx
    title := tSpec ctx
    style := applyStyles (sSpec ctx) h.style }

/-- Connected-state body of updateHexes: the loop over all rendered
g.hex groups of the shadow root. -/
def updateTree (data : Dataset) (tSpec : Ctx → String)
    (sSpec : Ctx → List (String × String)) (tree : List RenderedHex) :
    List RenderedHex :=
  tree.map (updateHex data tSpec sSpec)

end HexMap

/-- Observable state of one HexMap component instance: the connected flag,
the current dataset (undefined before any assignment models the falsy
guard), the rendered tree and the number of retry timeouts currently
pending. -/
structure CompState where
  connected : Bool
  data : Option Dataset
  tree : List RenderedHex
  pendingRetries : ℕ

namespace HexMap

/-- One invocation of updateHexes: return immediately on a falsy dataset;
when not connected, warn and schedule one more retry timeout without
touching the tree; otherwise run the update loop over the rendered
tree. -/
def updateHexesRun (tSpec : Ctx → String)
    (sSpec : Ctx → List (String × String)) (s : CompState) : CompState :=
  match s.data with
  | none => s
  | some d =>
    if s.connected then
      { s with tree := updateTree d tSpec sSpec s.tree }
    else
      { s with pendingRetries := s.pendingRetries + 1 }

/-- One pending retry timeout firing: it is consumed and re-invokes
updateHexes; with no pending timeout nothing happens. -/
def fireTimer (tSpec : Ctx → String)
    (sSpec : Ctx → List (String × String)) (s : CompState) : CompState :=
  if s.pendingRetries = 0 then s
  else updateHexesRun tSpec sSpec { s with pendingRetries := s.pendingRetries - 1 }

/-- Embedding of the data setter: store the new dataset and invoke
updateHexes. -/
def setData (tSpec : Ctx → String) (sSpec : Ctx → List (String × String))
    (d : Option Dataset) (s : CompState) : CompState :=
  updateHexesRun tSpec sSpec { s with data := d }

/-- Embedding of disconnectedCallback: clear the connected flag; pending
timeouts are not cancelled. -/
def disconnect (s : CompState) : CompState := { s with connected := false }

end HexMap

/-- JavaScript number restricted to the values reachable by the corner
fold of loadLayout: the two infinities of the initial accumulator and
finite integer coordinates. -/
inductive JNum : Type where
  | negInf
  | fin (x : ℤ)
  | inf
deriving DecidableEq, Repr

/-- Math.min on the modelled numbers. -/
def jmin : JNum → JNum → JNum
  | JNum.negInf, _ => JNum.negInf
  | _, JNum.negInf => JNum.negInf
  | JNum.inf, b => b
  | a, JNum.inf => a
  | JNum.fin a, JNum.fin b => JNum.fin (min a b)

/-- Math.max on the modelled numbers. -/
def jmax : JNum → JNum → JNum
  | JNum.inf, _ => JNum.inf
  | _, JNum.inf => JNum.inf
  | JNum.negInf, b => b
  | a, JNum.negInf => a
  | JNum.fin a, JNum.fin b => JNum.fin (max a b)

/-- Corners of the hexmap: min is bottom-left, max is top-right. -/
structure Bounds where
  min : JNum × JNum
  max : JNum × JNum
deriving DecidableEq, Repr

/-- Embedding of the corner computation of HexMap.loadLayout: a reduce
over the cell coordinates folding Math.min and Math.max componentwise,
started from min = (Infinity, Infinity) and max = (-Infinity, -Infinity).
There is no emptiness check in the source. -/
def computeBounds (cells : List (ℤ × ℤ)) : Bounds :=
  cells.foldl
    (fun bb qr =>
      { min := (jmin bb.min.1 (JNum.fin qr.1), jmin bb.min.2 (JNum.fin qr.2))
        max := (jmax bb.max.1 (JNum.fin qr.1), jmax bb.max.2 (JNum.fin qr.2)) })
    { min := (JNum.inf, JNum.inf), max := (JNum.negInf, JNum.negInf) }

/-- Tiered lookup value: either a stored payload of type T or a nested
JavaScript object of further levels. -/
inductive TVal (T : Type) : Type where
  | leaf (t : T)
  | obj (fields : List (String × TVal T))

/-- Object spread merge of two records, as written {...old, ...new}: keys
of old keep their position with the value from new when new also has the
key, and keys only in new are appended in their order. The replacement is
wholesale at the top level; nested objects are not merged. -/
def spreadMerge {α : Type} (old new : List (String × α)) :
    List (String × α) :=
  (old.map (fun kv => (kv.1, (assocGet new kv.1).getD kv.2))) ++
    new.filter (fun kv => (assocGet old kv.1).isNone)

namespace TieredCache

/-- One indexing step a[k] of the reduce inside the private get method.
Indexing undefined throws a TypeError; indexing an object yields the
property or undefined; indexing a stored payload (a primitive or array)
yields undefined for the string keys used here. -/
def tieredIndex {T : Type} : Option (TVal T) → String → Except Unit (Option (TVal T))
  | none, _ => Except.error ()
  | some (TVal.leaf _), _ => Except.ok none
  | some (TVal.obj fields), k => Except.ok (assocGet fields k)

/-- Embedding of the private get method: reduce the levels over indexing
steps starting from the cache data object; a TypeError aborts the
descent. -/
def tieredGet {T : Type} (levels : List String)
    (data : List (String × TVal T)) : Except Unit (Option (TVal T)) :=
  levels.foldl (fun acc k => acc.bind (fun v => tieredIndex v k))
    (Except.ok (some (TVal.obj data)))

/-- Embedding of the private loader method: call the load function with
the key that missed and spread-merge the result over the cache data. -/
def loadInto {T : Type} (loadFn : String → List (String × TVal T))
    (key : String) (data : List (String × TVal T)) :
    List (String × TVal T) :=
  spreadMerge data (loadFn key)

/-- Maximal runs of non-whitespace characters, accumulated front-first:
the tokens a regex split on runs of whitespace produces on a trimmed
string. -/
def wsTokens : List Char → List Char → List String
  | [], cur => if cur.isEmpty then [] else [String.mk cur.reverse]
  | c :: rest, cur =>
    if c.isWhitespace then
      if cur.isEmpty then wsTokens rest []
      else String.mk cur.reverse :: wsTokens rest []
    else wsTokens rest (c :: cur)

/-- Default splitter from the constructor: trim, then split on runs of
whitespace; an all-whitespace key trims to the empty string, which splits
to one empty level as in JavaScript. -/
def defaultSplitter (k : String) : List String :=
  let t := ((k.data.dropWhile Char.isWhitespace).reverse.dropWhile
    Char.isWhitespace).reverse
  if t.isEmpty then [String.mk t] else wsTokens t []

/-- Embedding of lookupOne, instrumented with the list of keys passed to
the load function: split the key, try the descent; on a TypeError load
once with the original compound key, merge, and retry the descent once,
whose outcome (value or second TypeError) is final. The result triple is
(lookup outcome, cache data afterwards, load calls made). -/
def lookupOne {T : Type} (loadFn : String → List (String × TVal T))
    (splitter : String → List String) (key : String)
    (data : List (String × TVal T)) :
    Except Unit (Option (TVal T)) × List (String × TVal T) × List String :=
  let levels := splitter key
  match tieredGet levels data with
  | Except.ok v => (Except.ok v, data, [])
  | Except.error _ =>
    let merged := loadInto loadFn key data
    (tieredGet levels merged, merged, [key])

end TieredCache

/-- Session storage contents: a mutable string-to-string map where getItem
on an absent key returns null (modelled as none). -/
abbrev Storage : Type := String → Option String

/-- Embedding of sessionStorage.setItem. -/
def sessionSetItem (st : Storage) (k v : String) : Storage :=
  fun k' => if k' = k then some v else st k'

/-- Embedding of sessionStorage.removeItem. -/
def sessionRemoveItem (st : Storage) (k : String) : Storage :=
  fun k' => if k' = k then none else st k'

namespace StorageItem

/-- Constructor guard of StorageItem: a falsy (empty) key throws a
SyntaxError, otherwise the key is kept. -/
def keyCheck (key : String) : Except Unit String :=
  if key = "" then Except.error () else Except.ok key

/-- Embedding of StorageItem.set: store the serialised data under the key.
JSON.stringify is platform behaviour, passed in as a function. -/
def set {J : Type} (stringify : J → String) (key : String) (data : J)
    (st : Storage) : Storage :=
  sessionSetItem st key (stringify data)

/-- Embedding of StorageItem.get: read the raw string; a falsy result
(null from an unset key, or the empty string) throws a ReferenceError,
otherwise the parsed value is returned. JSON.parse is platform behaviour,
passed in as a function. -/
def get {J : Type} (parse : String → J) (key : String) (st : Storage) :
    Except Unit J :=
  match st key with
  | none => Except.error ()
  | some s => if s = "" then Except.error () else Except.ok (parse s)

/-- Embedding of StorageItem.clear: remove the key from storage. -/
def clear (key : String) (st : Storage) : Storage :=
  sessionRemoveItem st key

end StorageItem

/-- Concrete title mapper used for witness instances. -/
def exTitleSpec : Ctx → String := fun _ => "title"

/-- Concrete style mapper used for witness instances. -/
def exStyleSpec : Ctx → List (String × String) := fun _ => [("fill", "#333")]

/-- Concrete empty dataset used for witness instances. -/
def exDataset : Dataset := fun _ => none

/-- Concrete rendered hex used for witness instances. -/
def exHex : RenderedHex :=
  { key := "k1", label := "Alp", title := "Alpha", dataValue := ""
    context := [("n", CtxVal.str "Alpha")], style := [] }

/-- Concrete disconnected component state used for witness instances. -/
def exState : CompState :=
  { connected := false, data := some exDataset, tree := [exHex]
    pendingRetries := 0 }

/-! Helper lemmas. -/

theorem int_tmod_two_cases (r : ℤ) :
    Int.tmod r 2 = 0 ∨ Int.tmod r 2 = 1 ∨ Int.tmod r 2 = -1 := by
  rcases r with m | m
  · rcases Nat.mod_two_eq_zero_or_one m with h | h <;>
      simp [Int.tmod, h]
  · rcases Nat.mod_two_eq_zero_or_one (m + 1) with h | h <;>
      simp [Int.tmod, h]

theorem int_tmod_two_eq_zero_iff (r : ℤ) : Int.tmod r 2 = 0 ↔ r % 2 = 0 := by
  constructor
  · intro h
    exact Int.emod_eq_zero_of_dvd (Int.dvd_of_tmod_eq_zero h)
  · intro h
    exact Int.tmod_eq_zero_of_dvd (Int.dvd_of_emod_eq_zero h)

/-- Math.abs of the truncated remainder mod 2 agrees with the absolute
value of the euclidean remainder mod 2 used by the specification text. -/
theorem jsAbsMod2_eq_abs_emod (r : ℤ) : jsAbsMod2 r = |r % 2| := by
  unfold jsAbsMod2
  rcases Int.emod_two_eq r with h | h
  · rw [h, (int_tmod_two_eq_zero_iff r).mpr h]
    simp
  · have h0 : Int.tmod r 2 ≠ 0 := fun hc => by
      rw [(int_tmod_two_eq_zero_iff r).mp hc] at h
      norm_num at h
    rcases int_tmod_two_cases r with h1 | h1 | h1
    · exact absurd h1 h0
    · rw [h, h1]
      simp
    · rw [h, h1]
      simp

/-- C1: for every integer axial coordinate (q, r) and each of the four
layout-mode combinations, the projection coordinates(q, r) equals the spec
formulas: with offsetTest = 0 if even-offset else 1, in pointy-top (not
rotated) mode x = mainPitch*q + (cadence if |r mod 2| = offsetTest else 0)
and y = height - crossPitch*r; in flat-top (rotated) mode x = crossPitch*q
and y = height - mainPitch*r - (cadence if |q mod 2| = offsetTest
else 0). -/
theorem coordinates_matches_spec (m : HexMapCfg) (q r : ℤ) :
    HexMap.coordinates m q r = HexMap.coordinatesSpec m q r := by
  unfold HexMap.coordinates HexMap.coordinatesSpec
  simp only [jsAbsMod2_eq_abs_emod]
  cases hr : m.rotated <;> cases he : m.even <;>
    simp [hr, he]

theorem hexCompare_trans (a b c : Cell) (hab : HexMap.hexCompare a b ≤ 0)
    (hbc : HexMap.hexCompare b c ≤ 0) : HexMap.hexCompare a c ≤ 0 := by
  unfold HexMap.hexCompare at *
  split_ifs at * <;> omega

theorem hexCompare_total (a b : Cell) :
    HexMap.hexCompare a b ≤ 0 ∨ HexMap.hexCompare b a ≤ 0 := by
  unfold HexMap.hexCompare
  split_ifs <;> omega

theorem hexes_pairwise (entries : List (String × HexDef)) :
    List.Pairwise (fun a b => HexMap.hexCompare a b ≤ 0)
      (HexMap.hexes entries) := by
  unfold HexMap.hexes
  have h := @List.sorted_mergeSort Cell
    (fun a b : Cell => decide (HexMap.hexCompare a b ≤ 0))
    (fun a b c hab hbc => by
      simp only [decide_eq_true_eq] at *
      exact hexCompare_trans a b c hab hbc)
    (fun a b => by
      simp only [Bool.or_eq_true, decide_eq_true_eq]
      exact hexCompare_total a b)
    (entries.map (fun e =>
      { key := e.1, q := e.2.q, r := e.2.r, context := e.2.context }))
  exact h.imp (by simp)

theorem assocGet_assocSet_self {α : Type} (l : List (String × α)) (k : String)
    (v : α) : assocGet (assocSet l k v) k = some v := by
  induction l with
  | nil => simp [assocGet, assocSet]
  | cons kv t ih =>
    obtain ⟨k', v'⟩ := kv
    by_cases h : k' = k
    · subst h
      simp [assocGet, assocSet]
    · simp [assocGet, assocSet, h, ih]

theorem assocGet_assocSet_ne {α : Type} (l : List (String × α)) (k k' : String)
    (v : α) (h : k' ≠ k) : assocGet (assocSet l k v) k' = assocGet l k' := by
  induction l with
  | nil => simp [assocGet, assocSet, Ne.symm h]
  | cons kv t ih =>
    obtain ⟨k0, v0⟩ := kv
    by_cases h0 : k0 = k
    · subst h0
      simp [assocGet, assocSet, Ne.symm h]
    · simp only [assocSet, if_neg h0]
      by_cases h1 : k0 = k'
      · subst h1
        simp [assocGet]
      · simp [assocGet, h1, ih]

theorem assocSet_absorb {α : Type} (l : List (String × α)) (k : String)
    (v w : α) : assocSet (assocSet l k w) k v = assocSet l k v := by
  induction l with
  | nil => simp [assocSet]
  | cons kv t ih =>
    obtain ⟨k0, v0⟩ := kv
    by_cases h0 : k0 = k
    · subst h0
      simp [assocSet]
    · simp [assocSet, h0, ih]

theorem assocSet_isSome {α : Type} (l : List (String × α)) (k k' : String)
    (v : α) (h : (assocGet l k').isSome) :
    (assocGet (assocSet l k v) k').isSome := by
  by_cases hk : k' = k
  · subst hk
    simp [assocGet_assocSet_self]
  · rwa [assocGet_assocSet_ne l k k' v hk]

theorem assocSet_of_assocGet_eq {α : Type} (l : List (String × α))
    (k : String) (v : α) (h : assocGet l k = some v) : assocSet l k v = l := by
  induction l with
  | nil => simp [assocGet] at h
  | cons kv t ih =>
    obtain ⟨k0, v0⟩ := kv
    by_cases h0 : k0 = k
    · subst h0
      simp [assocGet] at h
      simp [assocSet, h]
    · simp only [assocGet, if_neg h0] at h
      simp [assocSet, h0, ih h]

theorem assocSet_comm_of_present {α : Type} (l : List (String × α))
    (k k' : String) (v v' : α) (hne : k ≠ k')
    (hmem : (assocGet l k).isSome) :
    assocSet (assocSet l k v) k' v' = assocSet (assocSet l k' v') k v := by
  induction l with
  | nil => simp [assocGet] at hmem
  | cons kv t ih =>
    obtain ⟨k0, v0⟩ := kv
    by_cases h0 : k0 = k
    · subst h0
      simp [assocSet, hne, Ne.symm hne]
    · by_cases h1 : k0 = k'
      · subst h1
        simp [assocSet, h0, Ne.symm hne]
      · simp only [assocGet, if_neg h0] at hmem
        simp [assocSet, h0, h1, ih hmem]

theorem applyStyles_get_of_not_mem (entries : List (String × String))
    (s : List (String × String)) (k : String)
    (h : ∀ kv ∈ entries, kv.1 ≠ k) :
    assocGet (applyStyles entries s) k = assocGet s k := by
  induction entries generalizing s with
  | nil => rfl
  | cons kv t ih =>
    obtain ⟨k0, v0⟩ := kv
    have h0 : k0 ≠ k := h (k0, v0) (by simp)
    have ht : ∀ kv ∈ t, kv.1 ≠ k := fun kv hkv => h kv (by simp [hkv])
    show assocGet (applyStyles t (assocSet s k0 v0)) k = assocGet s k
    rw [ih (assocSet s k0 v0) ht,
      assocGet_assocSet_ne s k0 k v0 (Ne.symm h0)]

theorem applyStyles_isSome (entries : List (String × String))
    (s : List (String × String)) (k : String)
    (h : (assocGet s k).isSome) :
    (assocGet (applyStyles entries s) k).isSome := by
  induction entries generalizing s with
  | nil => exact h
  | cons kv t ih =>
    exact ih (assocSet s kv.1 kv.2) (assocSet_isSome s kv.1 k kv.2 h)

theorem applyStyles_assocSet_present (entries : List (String × String))
    (s : List (String × String)) (k : String) (v : String)
    (hmem : (assocGet s k).isSome)
    (hin : ∃ kv ∈ entries, kv.1 = k) :
    applyStyles entries (assocSet s k v) = applyStyles entries s := by
  induction entries generalizing s with
  | nil => simp at hin
  | cons kv t ih =>
    obtain ⟨k0, v0⟩ := kv
    by_cases h0 : k0 = k
    · subst h0
      show applyStyles t (assocSet (assocSet s k0 v) k0 v0) =
        applyStyles t (assocSet s k0 v0)
      rw [assocSet_absorb]
    · have hin' : ∃ kv ∈ t, kv.1 = k := by
        rcases hin with ⟨kv', hkv', hk'⟩
        rcases List.mem_cons.mp hkv' with h | h
        · rw [h] at hk'
          exact absurd hk' h0
        · exact ⟨kv', h, hk'⟩
      show applyStyles t (assocSet (assocSet s k v) k0 v0) =
        applyStyles t (assocSet s k0 v0)
      rw [assocSet_comm_of_present s k k0 v v0 (Ne.symm h0) hmem]
      exact ih (assocSet s k0 v0) (assocSet_isSome s k0 k v0 hmem) hin'

theorem applyStyles_idem (entries : List (String × String))
    (s : List (String × String)) :
    applyStyles entries (applyStyles entries s) = applyStyles entries s := by
  induction entries generalizing s with
  | nil => rfl
  | cons kv t ih =>
    obtain ⟨k0, v0⟩ := kv
    show applyStyles t (assocSet (applyStyles t (assocSet s k0 v0)) k0 v0) =
      applyStyles t (assocSet s k0 v0)
    by_cases hmem : ∃ kv ∈ t, kv.1 = k0
    · rw [applyStyles_assocSet_present t (applyStyles t (assocSet s k0 v0))
        k0 v0
        (applyStyles_isSome t (assocSet s k0 v0) k0
          (by simp [assocGet_assocSet_self]))
        hmem]
      exact ih (assocSet s k0 v0)
    · have hnot : ∀ kv ∈ t, kv.1 ≠ k0 := by
        intro kv hkv
        exact fun hc => hmem ⟨kv, hkv, hc⟩
      have hget : assocGet (applyStyles t (assocSet s k0 v0)) k0 = some v0 := by
        rw [applyStyles_get_of_not_mem t (assocSet s k0 v0) k0 hnot,
          assocGet_assocSet_self]
      rw [assocSet_of_assocGet_eq _ k0 v0 hget]
      exact ih (assocSet s k0 v0)

/-- C2: the draw-order resolver (the hexes getter) returns the cells in a
total preorder independent of the source iteration order: the comparator
puts a before b whenever a.r is greater than b.r, puts a before b on equal
rows whenever a.q is less than b.q, reports two cells with identical
(q, r) as equal, depends only on the axial coordinates, is transitive and
total, and the returned list is sorted by it. -/
theorem hexes_draw_order (a b c a' b' : Cell)
    (entries : List (String × HexDef)) :
    (b.r < a.r → HexMap.hexCompare a b = -1) ∧
    (a.r = b.r → a.q < b.q → HexMap.hexCompare a b = -1) ∧
    (a.q = b.q → a.r = b.r → HexMap.hexCompare a b = 0) ∧
    (a.q = a'.q → a.r = a'.r → b.q = b'.q → b.r = b'.r →
      HexMap.hexCompare a b = HexMap.hexCompare a' b') ∧
    (HexMap.hexCompare a b ≤ 0 → HexMap.hexCompare b c ≤ 0 →
      HexMap.hexCompare a c ≤ 0) ∧
    (HexMap.hexCompare a b ≤ 0 ∨ HexMap.hexCompare b a ≤ 0) ∧
    List.Pairwise (fun x y => HexMap.hexCompare x y ≤ 0)
      (HexMap.hexes entries) := by
  refine ⟨?_, ?_, ?_, ?_, hexCompare_trans a b c, hexCompare_total a b,
    hexes_pairwise entries⟩
  · intro h
    unfold HexMap.hexCompare
    split_ifs <;> omega
  · intro h1 h2
    unfold HexMap.hexCompare
    split_ifs <;> omega
  · intro h1 h2
    unfold HexMap.hexCompare
    split_ifs <;> omega
  · intro h1 h2 h3 h4
    unfold HexMap.hexCompare
    rw [h1, h2, h3, h4]

/-- Witness for C2 at concrete cells and a concrete two-cell layout. -/
theorem hexes_draw_order_witness :
    HexMap.hexCompare ⟨"a", 0, 1, []⟩ ⟨"b", 5, 0, []⟩ = -1 ∧
    HexMap.hexCompare ⟨"a", 0, 2, []⟩ ⟨"b", 3, 2, []⟩ = -1 ∧
    HexMap.hexCompare ⟨"a", 4, 2, []⟩ ⟨"b", 4, 2, []⟩ = 0 ∧
    List.Pairwise (fun x y => HexMap.hexCompare x y ≤ 0)
      (HexMap.hexes [("a", ⟨0, 0, []⟩), ("b", ⟨1, 2, []⟩)]) := by
  obtain ⟨h1, _, _, _, _, _, _⟩ :=
    hexes_draw_order ⟨"a", 0, 1, []⟩ ⟨"b", 5, 0, []⟩ ⟨"c", 0, 0, []⟩
      ⟨"a", 0, 1, []⟩ ⟨"b", 5, 0, []⟩ []
  obtain ⟨_, h2, _, _, _, _, _⟩ :=
    hexes_draw_order ⟨"a", 0, 2, []⟩ ⟨"b", 3, 2, []⟩ ⟨"c", 0, 0, []⟩
      ⟨"a", 0, 2, []⟩ ⟨"b", 3, 2, []⟩ []
  obtain ⟨_, _, h3, _, _, _, _⟩ :=
    hexes_draw_order ⟨"a", 4, 2, []⟩ ⟨"b", 4, 2, []⟩ ⟨"c", 0, 0, []⟩
      ⟨"a", 4, 2, []⟩ ⟨"b", 4, 2, []⟩ []
  obtain ⟨_, _, _, _, _, _, h7⟩ :=
    hexes_draw_order ⟨"a", 0, 1, []⟩ ⟨"b", 5, 0, []⟩ ⟨"c", 0, 0, []⟩
      ⟨"a", 0, 1, []⟩ ⟨"b", 5, 0, []⟩
      [("a", ⟨0, 0, []⟩), ("b", ⟨1, 2, []⟩)]
  exact ⟨h1 (by decide), h2 (by decide) (by decide), h3 (by decide) (by decide), h7⟩


theorem updateHex_idem (data : Dataset) (tS : Ctx → String)
    (sS : Ctx → List (String × String)) (h : RenderedHex) :
    HexMap.updateHex data tS sS (HexMap.updateHex data tS sS h) =
      HexMap.updateHex data tS sS h := by
  have hctx : ∀ (A : Ctx) (c v : CtxVal),
      assocSet (assocSet (assocSet (assocSet A "count" c) "value" v) "count" c)
          "value" v =
        assocSet (assocSet A "count" c) "value" v := by
    intro A c v
    rw [← assocSet_comm_of_present (assocSet A "count" c) "count" "value" c v
        (by decide) (by rw [assocGet_assocSet_self]; rfl),
      assocSet_absorb, assocSet_absorb]
  simp only [HexMap.updateHex]
  rw [hctx, applyStyles_idem]

theorem updateTree_idem (data : Dataset) (tS : Ctx → String)
    (sS : Ctx → List (String × String)) (tree : List RenderedHex) :
    HexMap.updateTree data tS sS (HexMap.updateTree data tS sS tree) =
      HexMap.updateTree data tS sS tree := by
  induction tree with
  | nil => rfl
  | cons hd tl ih =>
    simp only [HexMap.updateTree, List.map_cons] at *
    rw [updateHex_idem]
    exact List.cons_eq_cons.mpr ⟨rfl, ih⟩

/-- C3: calling bind (updateHexes) twice consecutively with the same
unchanged dataset, under pure mapper functions, leaves the visual state
after the second call identical to the state after the first call, both
for the rendered tree of a component state and for the bare update loop
over any rendered tree. -/
theorem bind_idempotent (tS : Ctx → String)
    (sS : Ctx → List (String × String)) (s : CompState) (data : Dataset)
    (tree : List RenderedHex) :
    (HexMap.updateHexesRun tS sS (HexMap.updateHexesRun tS sS s)).tree =
      (HexMap.updateHexesRun tS sS s).tree ∧
    HexMap.updateTree data tS sS (HexMap.updateTree data tS sS tree) =
      HexMap.updateTree data tS sS tree := by
  refine ⟨?_, updateTree_idem data tS sS tree⟩
  unfold HexMap.updateHexesRun
  cases hd : s.data with
  | none => simp [hd]
  | some d =>
    cases hc : s.connected with
    | false => simp [hd, hc]
    | true => simp [hd, hc, updateTree_idem]

theorem fireTimer_detached (tS : Ctx → String)
    (sS : Ctx → List (String × String)) (s : CompState)
    (h : s.connected = false) :
    (HexMap.fireTimer tS sS s).tree = s.tree ∧
      (HexMap.fireTimer tS sS s).connected = false := by
  unfold HexMap.fireTimer HexMap.updateHexesRun
  by_cases h0 : s.pendingRetries = 0
  · simp [h0, h]
  · cases hd : s.data with
    | none => simp [h0, hd, h]
    | some d => simp [h0, hd, h]

theorem iterate_fireTimer_detached (tS : Ctx → String)
    (sS : Ctx → List (String × String)) (s : CompState)
    (h : s.connected = false) (n : ℕ) :
    ((HexMap.fireTimer tS sS)^[n] s).tree = s.tree ∧
      ((HexMap.fireTimer tS sS)^[n] s).connected = false := by
  induction n with
  | zero => simp [h]
  | succ m ih =>
    rw [Function.iterate_succ_apply']
    obtain ⟨h1, h2⟩ := ih
    obtain ⟨g1, g2⟩ := fireTimer_detached tS sS _ h2
    exact ⟨g1.trans h1, g2⟩

/-- C5: a dataset assignment arriving while the component is not connected
is deferred (one more retry timeout is scheduled) and does not touch the
tree, rather than being dropped or throwing; and after a disconnect, any
number of pending deferred binds firing never mutates the detached
tree. -/
theorem deferred_bind_safe (tS : Ctx → String)
    (sS : Ctx → List (String × String)) (s : CompState) (d : Dataset)
    (n : ℕ) (h : s.connected = false) :
    ((HexMap.setData tS sS (some d) s).tree = s.tree ∧
      (HexMap.setData tS sS (some d) s).pendingRetries =
        s.pendingRetries + 1) ∧
    ((HexMap.fireTimer tS sS)^[n] (HexMap.disconnect s)).tree = s.tree := by
  constructor
  · unfold HexMap.setData HexMap.updateHexesRun
    simp [h]
  · have hd : (HexMap.disconnect s).connected = false := rfl
    have := (iterate_fireTimer_detached tS sS (HexMap.disconnect s) hd n).1
    exact this

/-- Witness for C5 at a concrete disconnected component state. -/
theorem deferred_bind_safe_witness :
    exState.connected = false ∧
    ((HexMap.setData exTitleSpec exStyleSpec (some exDataset) exState).tree =
        exState.tree ∧
      (HexMap.setData exTitleSpec exStyleSpec (some exDataset)
          exState).pendingRetries = exState.pendingRetries + 1) ∧
    ((HexMap.fireTimer exTitleSpec exStyleSpec)^[3]
        (HexMap.disconnect exState)).tree = exState.tree := by
  refine ⟨rfl, ?_⟩
  exact deferred_bind_safe exTitleSpec exStyleSpec exState exDataset 3 rfl

theorem updateHex_context_get (data : Dataset) (tS : Ctx → String)
    (sS : Ctx → List (String × String)) (h : RenderedHex) :
    assocGet (HexMap.updateHex data tS sS h).context "count" =
      some (CtxVal.num (entryField ((data h.key).getD []) "count")) ∧
    assocGet (HexMap.updateHex data tS sS h).context "value" =
      some (CtxVal.num (entryField ((data h.key).getD []) "value")) ∧
    (HexMap.updateHex data tS sS h).dataValue =
      numToString (entryField ((data h.key).getD []) "value") := by
  unfold HexMap.updateHex
  refine ⟨?_, ?_, rfl⟩
  · rw [assocGet_assocSet_ne _ _ _ _ (by decide), assocGet_assocSet_self]
  · rw [assocGet_assocSet_self]

/-- C6: a rendered cell whose key is absent from the dataset gets
count = 0 and value = 0 written into its context and its data-value set
from the defaulted value; a dataset entry lacking the count or value field
likewise contributes 0 for the missing field. -/
theorem bind_defaults_zero (data : Dataset) (tS : Ctx → String)
    (sS : Ctx → List (String × String)) (h : RenderedHex) :
    (data h.key = none →
      assocGet (HexMap.updateHex data tS sS h).context "count" =
        some (CtxVal.num 0) ∧
      assocGet (HexMap.updateHex data tS sS h).context "value" =
        some (CtxVal.num 0) ∧
      (HexMap.updateHex data tS sS h).dataValue = numToString 0) ∧
    (∀ e, data h.key = some e → assocGet e "count" = none →
      assocGet (HexMap.updateHex data tS sS h).context "count" =
        some (CtxVal.num 0)) ∧
    (∀ e, data h.key = some e → assocGet e "value" = none →
      assocGet (HexMap.updateHex data tS sS h).context "value" =
        some (CtxVal.num 0) ∧
      (HexMap.updateHex data tS sS h).dataValue = numToString 0) := by
  obtain ⟨g1, g2, g3⟩ := updateHex_context_get data tS sS h
  refine ⟨?_, ?_, ?_⟩
  · intro hd
    rw [hd] at g1 g2 g3
    exact ⟨g1, g2, g3⟩
  · intro e hd he
    rw [hd] at g1
    simpa [entryField, he] using g1
  · intro e hd he
    rw [hd] at g2 g3
    constructor
    · simpa [entryField, he] using g2
    · simpa [entryField, he] using g3

/-- Witness for C6: an empty dataset defaults both fields, and an entry
with only a value field defaults count. -/
theorem bind_defaults_zero_witness :
    exDataset exHex.key = none ∧
    (assocGet (HexMap.updateHex exDataset exTitleSpec exStyleSpec
        exHex).context "count" = some (CtxVal.num 0) ∧
      assocGet (HexMap.updateHex exDataset exTitleSpec exStyleSpec
        exHex).context "value" = some (CtxVal.num 0) ∧
      (HexMap.updateHex exDataset exTitleSpec exStyleSpec exHex).dataValue =
        numToString 0) ∧
    assocGet (HexMap.updateHex
        (fun k => if k = "k1" then some [("value", (2 : ℚ))] else none)
        exTitleSpec exStyleSpec exHex).context "count" =
      some (CtxVal.num 0) := by
  refine ⟨rfl,
    (bind_defaults_zero exDataset exTitleSpec exStyleSpec exHex).1 rfl, ?_⟩
  exact (bind_defaults_zero
      (fun k => if k = "k1" then some [("value", (2 : ℚ))] else none)
      exTitleSpec exStyleSpec exHex).2.1
    [("value", (2 : ℚ))] (by decide) (by decide)

theorem updateHex_context_frame (data : Dataset) (tS : Ctx → String)
    (sS : Ctx → List (String × String)) (h : RenderedHex) (k : String)
    (h1 : k ≠ "count") (h2 : k ≠ "value") :
    assocGet (HexMap.updateHex data tS sS h).context k =
      assocGet h.context k := by
  unfold HexMap.updateHex
  rw [assocGet_assocSet_ne _ _ _ _ h2, assocGet_assocSet_ne _ _ _ _ h1]

/-- C7: bind never creates or destroys rendered primitives: the update
loop preserves the number of rendered cells, their identity keys and
their label text, and leaves every context field other than count and
value unchanged. -/
theorem bind_frame (data : Dataset) (tS : Ctx → String)
    (sS : Ctx → List (String × String)) (tree : List RenderedHex) :
    (HexMap.updateTree data tS sS tree).length = tree.length ∧
    (HexMap.updateTree data tS sS tree).map (fun h => h.key) =
      tree.map (fun h => h.key) ∧
    (HexMap.updateTree data tS sS tree).map (fun h => h.label) =
      tree.map (fun h => h.label) ∧
    ∀ k, k ≠ "count" → k ≠ "value" →
      (HexMap.updateTree data tS sS tree).map (fun h => assocGet h.context k) =
        tree.map (fun h => assocGet h.context k) := by
  refine ⟨by simp [HexMap.updateTree], ?_, ?_, ?_⟩
  · induction tree with
    | nil => rfl
    | cons hd tl ih =>
      simp only [HexMap.updateTree, List.map_cons] at *
      exact List.cons_eq_cons.mpr ⟨rfl, ih⟩
  · induction tree with
    | nil => rfl
    | cons hd tl ih =>
      simp only [HexMap.updateTree, List.map_cons] at *
      exact List.cons_eq_cons.mpr ⟨rfl, ih⟩
  · intro k h1 h2
    induction tree with
    | nil => rfl
    | cons hd tl ih =>
      simp only [HexMap.updateTree, List.map_cons] at *
      exact List.cons_eq_cons.mpr
        ⟨updateHex_context_frame data tS sS hd k h1 h2, ih⟩

/-- Witness for C7 at a one-cell tree and the context field n. -/
theorem bind_frame_witness :
    ("n" : String) ≠ "count" ∧ ("n" : String) ≠ "value" ∧
    (HexMap.updateTree exDataset exTitleSpec exStyleSpec [exHex]).length =
      [exHex].length ∧
    (HexMap.updateTree exDataset exTitleSpec exStyleSpec [exHex]).map
        (fun h => h.key) = [exHex].map (fun h => h.key) ∧
    (HexMap.updateTree exDataset exTitleSpec exStyleSpec [exHex]).map
        (fun h => h.label) = [exHex].map (fun h => h.label) ∧
    (HexMap.updateTree exDataset exTitleSpec exStyleSpec [exHex]).map
        (fun h => assocGet h.context "n") =
      [exHex].map (fun h => assocGet h.context "n") := by
  obtain ⟨g1, g2, g3, g4⟩ :=
    bind_frame exDataset exTitleSpec exStyleSpec [exHex]
  exact ⟨by decide, by decide, g1, g2, g3, g4 "n" (by decide) (by decide)⟩

/-- C4 counterexample: on an empty cell map the bounds fold of loadLayout
returns the Infinity-valued initial accumulator; it is a total computation
and raises no error, contradicting the claimed EmptyLayoutError. -/
theorem computeBounds_empty_counterexample :
    computeBounds [] =
      { min := (JNum.inf, JNum.inf), max := (JNum.negInf, JNum.negInf) } := rfl

/-- C4 amended: if the layout document's cell map is empty, the bounds
computation silently yields the Infinity-valued bounds min = (inf, inf),
max = (-inf, -inf); no emptiness error exists in the code. -/
theorem computeBounds_empty_silent (cells : List (ℤ × ℤ))
    (h : cells = []) :
    computeBounds cells =
      { min := (JNum.inf, JNum.inf), max := (JNum.negInf, JNum.negInf) } := by
  subst h
  rfl

/-- Witness for the amended C4 at the empty cell list. -/
theorem computeBounds_empty_silent_witness :
    ([] : List (ℤ × ℤ)) = [] ∧
    computeBounds [] =
      { min := (JNum.inf, JNum.inf), max := (JNum.negInf, JNum.negInf) } :=
  ⟨rfl, computeBounds_empty_silent [] rfl⟩

/-- C8: lookupOne splits the key with the configured splitter and descends
the cached mapping; a descent that succeeds (the path is present, or ends
at undefined without indexing through undefined) triggers no load call and
leaves the cache unchanged; a descent that fails with a TypeError triggers
exactly one load-and-merge cycle keyed by the original compound key and
retries the descent once, whose outcome is final, so a second failure
propagates; at most one load call ever happens; and the default splitter
splits on whitespace. -/
theorem tieredCache_lookupOne_spec {T : Type}
    (loadFn : String → List (String × TVal T))
    (splitter : String → List String) (key : String)
    (data : List (String × TVal T)) :
    (∀ v, TieredCache.tieredGet (splitter key) data = Except.ok v →
      TieredCache.lookupOne loadFn splitter key data =
        (Except.ok v, data, [])) ∧
    (TieredCache.tieredGet (splitter key) data = Except.error () →
      (TieredCache.lookupOne loadFn splitter key data).2.2 = [key] ∧
      (TieredCache.lookupOne loadFn splitter key data).2.1 =
        TieredCache.loadInto loadFn key data ∧
      (TieredCache.lookupOne loadFn splitter key data).1 =
        TieredCache.tieredGet (splitter key)
          (TieredCache.loadInto loadFn key data)) ∧
    (TieredCache.tieredGet (splitter key) data = Except.error () →
      TieredCache.tieredGet (splitter key)
          (TieredCache.loadInto loadFn key data) = Except.error () →
      (TieredCache.lookupOne loadFn splitter key data).1 =
        Except.error ()) ∧
    (TieredCache.lookupOne loadFn splitter key data).2.2.length ≤ 1 ∧
    TieredCache.defaultSplitter " a  b c " = ["a", "b", "c"] := by
  refine ⟨?_, ?_, ?_, ?_, ?_⟩
  · intro v hv
    simp only [TieredCache.lookupOne]
    rw [hv]
  · intro he
    simp only [TieredCache.lookupOne]
    rw [he]
    exact ⟨rfl, rfl, rfl⟩
  · intro he he2
    simp only [TieredCache.lookupOne]
    rw [he]
    exact he2
  · simp only [TieredCache.lookupOne]
    cases hg : TieredCache.tieredGet (splitter key) data with
    | ok v => simp [hg]
    | error e => simp [hg]
  · rfl

/-- Witness for C8: a cached path is found without loading, and a miss
loads once with the original compound key and fails again when the loaded
data still lacks the path. -/
theorem tieredCache_lookupOne_spec_witness :
    TieredCache.tieredGet (TieredCache.defaultSplitter "a b")
        [("a", TVal.obj [("b", TVal.leaf (7 : ℕ))])] =
      Except.ok (some (TVal.leaf 7)) ∧
    TieredCache.lookupOne (fun _ => [("x", TVal.leaf (3 : ℕ))])
        TieredCache.defaultSplitter "a b"
        [("a", TVal.obj [("b", TVal.leaf 7)])] =
      (Except.ok (some (TVal.leaf 7)),
        [("a", TVal.obj [("b", TVal.leaf 7)])], []) ∧
    TieredCache.tieredGet (TieredCache.defaultSplitter "a b")
        ([] : List (String × TVal ℕ)) = Except.error () ∧
    (TieredCache.lookupOne (fun _ => [("x", TVal.leaf (3 : ℕ))])
        TieredCache.defaultSplitter "a b" []).2.2 = ["a b"] ∧
    (TieredCache.lookupOne (fun _ => [("x", TVal.leaf (3 : ℕ))])
        TieredCache.defaultSplitter "a b" []).1 = Except.error () := by
  have h1 := (tieredCache_lookupOne_spec (fun _ => [("x", TVal.leaf (3 : ℕ))])
    TieredCache.defaultSplitter "a b"
    [("a", TVal.obj [("b", TVal.leaf 7)])]).1 (some (TVal.leaf 7)) rfl
  have h2 := (tieredCache_lookupOne_spec (fun _ => [("x", TVal.leaf (3 : ℕ))])
    TieredCache.defaultSplitter "a b" ([] : List (String × TVal ℕ))).2.1 rfl
  have h3 := (tieredCache_lookupOne_spec (fun _ => [("x", TVal.leaf (3 : ℕ))])
    TieredCache.defaultSplitter "a b" ([] : List (String × TVal ℕ))).2.2.1
    rfl rfl
  exact ⟨rfl, h1, rfl, h2.1, h3⟩

theorem assocGet_append {α : Type} (l1 l2 : List (String × α)) (k : String) :
    assocGet (l1 ++ l2) k =
      match assocGet l1 k with
      | some v => some v
      | none => assocGet l2 k := by
  induction l1 with
  | nil => rfl
  | cons kv t ih =>
    obtain ⟨k0, v0⟩ := kv
    by_cases h : k0 = k <;> simp [assocGet, h, ih]

theorem assocGet_mapValues {α : Type} (old new : List (String × α))
    (k : String) :
    assocGet (old.map (fun kv => (kv.1, (assocGet new kv.1).getD kv.2))) k =
      (assocGet old k).map (fun v => (assocGet new k).getD v) := by
  induction old with
  | nil => rfl
  | cons kv t ih =>
    obtain ⟨k0, v0⟩ := kv
    by_cases h : k0 = k
    · subst h
      simp [assocGet]
    · simp [assocGet, h, ih]

theorem assocGet_filter_of_true {α : Type} (l : List (String × α))
    (p : String × α → Bool) (k : String) (hp : ∀ v, p (k, v) = true) :
    assocGet (l.filter p) k = assocGet l k := by
  induction l with
  | nil => rfl
  | cons kv t ih =>
    obtain ⟨k0, v0⟩ := kv
    by_cases h : k0 = k
    · subst h
      simp [List.filter, hp v0, assocGet]
    · cases hkeep : p (k0, v0) <;>
        simp [List.filter, hkeep, assocGet, h, ih]

theorem assocGet_filter_of_false {α : Type} (l : List (String × α))
    (p : String × α → Bool) (k : String) (hp : ∀ v, p (k, v) = false) :
    assocGet (l.filter p) k = none := by
  induction l with
  | nil => rfl
  | cons kv t ih =>
    obtain ⟨k0, v0⟩ := kv
    by_cases h : k0 = k
    · subst h
      simp [List.filter, hp v0, ih]
    · cases hkeep : p (k0, v0) <;>
        simp [List.filter, hkeep, assocGet, h, ih]

/-- C10: the load-and-merge of the tiered cache combines by top-level key
only: a top-level key present in the loaded result is replaced wholesale
with the loaded value (whatever subtree either side holds), and a
top-level key absent from the loaded result keeps its cached value. -/
theorem spreadMerge_toplevel {α : Type} (old new : List (String × α))
    (k : String) :
    (∀ v, assocGet new k = some v →
      assocGet (spreadMerge old new) k = some v) ∧
    (assocGet new k = none →
      assocGet (spreadMerge old new) k = assocGet old k) := by
  constructor
  · intro v hv
    unfold spreadMerge
    rw [assocGet_append, assocGet_mapValues old new k]
    cases ho : assocGet old k with
    | some w =>
      simp [hv]
    | none =>
      show assocGet (new.filter (fun kv => (assocGet old kv.1).isNone)) k =
        some v
      rw [assocGet_filter_of_true new _ k (fun v' => by simp [ho])]
      exact hv
  · intro hv
    unfold spreadMerge
    rw [assocGet_append, assocGet_mapValues old new k]
    cases ho : assocGet old k with
    | some w =>
      simp [hv]
    | none =>
      show assocGet (new.filter (fun kv => (assocGet old kv.1).isNone)) k =
        none
      rw [assocGet_filter_of_true new _ k (fun v' => by simp [ho])]
      exact hv

/-- Witness for C10: a nested cached subtree under key a is replaced
wholesale by the loaded leaf, and key b keeps its cached value. -/
theorem spreadMerge_toplevel_witness :
    assocGet [("a", TVal.leaf (2 : ℕ))] "a" = some (TVal.leaf 2) ∧
    assocGet (spreadMerge
        [("a", TVal.obj [("x", TVal.leaf (1 : ℕ))]), ("b", TVal.leaf 5)]
        [("a", TVal.leaf 2)]) "a" = some (TVal.leaf 2) ∧
    assocGet [("a", TVal.leaf (2 : ℕ))] "b" = none ∧
    assocGet (spreadMerge
        [("a", TVal.obj [("x", TVal.leaf (1 : ℕ))]), ("b", TVal.leaf 5)]
        [("a", TVal.leaf 2)]) "b" =
      assocGet [("a", TVal.obj [("x", TVal.leaf (1 : ℕ))]),
        ("b", TVal.leaf 5)] "b" := by
  refine ⟨rfl, ?_, rfl, ?_⟩
  · exact (spreadMerge_toplevel
      [("a", TVal.obj [("x", TVal.leaf (1 : ℕ))]), ("b", TVal.leaf 5)]
      [("a", TVal.leaf 2)] "a").1 (TVal.leaf 2) rfl
  · exact (spreadMerge_toplevel
      [("a", TVal.obj [("x", TVal.leaf (1 : ℕ))]), ("b", TVal.leaf 5)]
      [("a", TVal.leaf 2)] "b").2 rfl

/-- C9: for a non-empty key and a serialisable value (the platform JSON
codec is a parameter, assumed inverse on the value and producing a
non-empty string), get after set returns the value; get on a storage
where the key was never set fails; and get after clear fails. -/
theorem storageItem_roundtrip (J : Type) (stringify : J → String)
    (parse : String → J) (key : String) (data : J) (st st0 : Storage)
    (hkey : key ≠ "") (hrt : parse (stringify data) = data)
    (hne : stringify data ≠ "") (h0 : st0 key = none) :
    StorageItem.keyCheck key = Except.ok key ∧
    StorageItem.get parse key (StorageItem.set stringify key data st) =
      Except.ok data ∧
    StorageItem.get parse key st0 = Except.error () ∧
    StorageItem.get parse key (StorageItem.clear key st) =
      Except.error () := by
  refine ⟨?_, ?_, ?_, ?_⟩
  · simp [StorageItem.keyCheck, hkey]
  · unfold StorageItem.get StorageItem.set sessionSetItem
    simp [hne, hrt]
  · unfold StorageItem.get
    rw [h0]
  · unfold StorageItem.get StorageItem.clear sessionRemoveItem
    simp

/-- Witness for C9 with a two-value type and a concrete one-point codec. -/
theorem storageItem_roundtrip_witness :
    ("k" : String) ≠ "" ∧
    (fun _ => true : String → Bool) ((fun _ => "t" : Bool → String) true) =
      true ∧
    (fun _ => "t" : Bool → String) true ≠ "" ∧
    (fun _ => none : Storage) "k" = none ∧
    StorageItem.keyCheck "k" = Except.ok "k" ∧
    StorageItem.get (fun _ => true) "k"
        (StorageItem.set (fun _ => "t") "k" true (fun _ => none)) =
      Except.ok true ∧
    StorageItem.get (fun _ => true : String → Bool) "k" (fun _ => none) =
      Except.error () ∧
    StorageItem.get (fun _ => true) "k"
        (StorageItem.clear "k" (fun _ => none)) = Except.error () := by
  obtain ⟨g1, g2, g3, g4⟩ := storageItem_roundtrip Bool (fun _ => "t")
    (fun _ => true) "k" true (fun _ => none) (fun _ => none)
    (by decide) rfl (by decide) rfl
  exact ⟨by decide, rfl, by decide, rfl, g1, g2, g3, g4⟩
